import Mathlib

/-!
Verification of the chaloner careers-page integration.

The repository has two server-side RSS/apply route variants and three
client-side controllers.  We embed the pure decision logic of each cited
function over lists of characters (`List Char`) and plain structures, and
prove the frozen claims about them.

Conventions:
* JavaScript strings are embedded as Lean `String`/`List Char`;
  `someString.replace(/x/g, y)` over single-character patterns becomes
  `replaceChar`.
* Machine integers (file sizes) are `Nat`; no overflow is possible at the
  sizes involved.
* DOM access and `fetch` are external collaborators: handlers are modelled
  as functions of the data they read, and the single outgoing request of a
  submission becomes a `SubmitAction.post` value.
-/

namespace Rss

/-- The apostrophe character (code point 39). -/
def apos : Char := Char.ofNat 39

/-- The double-quote character (code point 34). -/
def quoteC : Char := Char.ofNat 34

/-- Replace every occurrence of the single character `p` by the string `r`;
this is `String.prototype.replace` with a global single-character pattern. -/
def replaceChar (p : Char) (r : List Char) : List Char → List Char
  | [] => []
  | c :: cs => (if c = p then r else [c]) ++ replaceChar p r cs

/-- `escapeXml` from `src/unnamed/part_000` lines 49-56 (identical in
`part_001` lines 48-55): the five global replacements applied in source
order (`&`, `<`, `>`, `"`, then the apostrophe). -/
def escapeXml (s : List Char) : List Char :=
  replaceChar apos (("&apos;").data)
    (replaceChar quoteC (("&quot;").data)
      (replaceChar '>' (("&gt;").data)
        (replaceChar '<' (("&lt;").data)
          (replaceChar '&' (("&amp;").data) s))))

/-- Character-wise form of `escapeXml`: the image of one character under
the five replacements (proved equal to `escapeXml` below). -/
def escapeChar (c : Char) : List Char :=
  if c = '&' then ("&amp;").data
  else if c = '<' then ("&lt;").data
  else if c = '>' then ("&gt;").data
  else if c = quoteC then ("&quot;").data
  else if c = apos then ("&apos;").data
  else [c]

/-- Character-wise escaping of a whole string. -/
def escapeChars : List Char → List Char
  | [] => []
  | c :: cs => escapeChar c ++ escapeChars cs

/-- Boolean prefix test on character lists, curried so that it reduces
definitionally when the pattern is a literal. -/
def pre : List Char → List Char → Bool
  | [] => fun _ => true
  | a :: as => fun l =>
    match l with
    | [] => false
    | b :: bs => (a == b) && pre as bs

/-- Decode one predefined XML entity body (the text after a leading `&`):
returns the decoded character and the remaining input, or `none` when the
text after the ampersand is not one of the five predefined entities. -/
def unescapeEnt (cs : List Char) : Option (Char × List Char) :=
  if pre (("amp;").data) cs then some ('&', cs.drop 4)
  else if pre (("lt;").data) cs then some ('<', cs.drop 3)
  else if pre (("gt;").data) cs then some ('>', cs.drop 3)
  else if pre (("quot;").data) cs then some (quoteC, cs.drop 5)
  else if pre (("apos;").data) cs then some (apos, cs.drop 5)
  else none

/-- Fuel-driven worker for `unescapeXml`; the fuel only forces structural
termination and is always at least the input length at every call. -/
def unescapeAux : Nat → List Char → List Char
  | _, [] => []
  | 0, l => l
  | fuel + 1, c :: cs =>
    if c = '&' then
      match unescapeEnt cs with
      | some (d, t) => d :: unescapeAux fuel t
      | none => '&' :: unescapeAux fuel cs
    else c :: unescapeAux fuel cs

/-- Standard XML entity expansion performed by a re-parser on text content
outside CDATA sections: the five predefined entities are decoded, all other
text is kept verbatim. -/
def unescapeXml (l : List Char) : List Char := unescapeAux l.length l

/-- String-level wrapper for `escapeXml`. -/
def escapeXmlStr (s : String) : String := String.mk (escapeXml s.data)

end Rss

/-- A job as consumed by the two RSS renderers: `id`, `title`, the optional
`macro_address` (JS `null`/`undefined` becomes `none`) and the raw
`published_at` value. -/
structure RssJob where
  id : Nat
  title : String
  macro_address : Option String
  published_at : String
deriving DecidableEq

namespace Rss

/-- JavaScript truthiness of the optional `macro_address` string:
`null`/`undefined` and the empty string are falsy. -/
def truthy : Option String → Bool
  | none => false
  | some s => !(s == "")

/-- `job.macro_address ?? "Remote"`: the nullish coalescing keeps an empty
string, only `null`/`undefined` fall back to `"Remote"`. -/
def locationOf (j : RssJob) : String :=
  match j.macro_address with
  | some s => s
  | none => "Remote"

/-- The string interpolated into the `<title>` element before escaping:
the job title plus, when `macro_address` is truthy, a parenthesised
location suffix. -/
def titleWithLoc (j : RssJob) : String :=
  j.title ++ (if truthy j.macro_address then " (" ++ j.macro_address.getD ("") ++ ")" else "")

/-- The escaped character data placed inside the `<title>` element. -/
def titleXmlText (j : RssJob) : List Char := escapeXml (titleWithLoc j).data

/-- The escaped location text placed inside the CDATA-wrapped
`<description>` element. -/
def descLocationXmlText (j : RssJob) : List Char := escapeXml (locationOf j).data

/-- An XML 1.0 re-parser yields the content of a CDATA section verbatim:
no entity expansion happens inside a CDATA section, so the parsed character
data is the content itself. -/
def cdataParsedText (content : List Char) : List Char := content

/-- The fixed permalink base of both renderers. -/
def baseUrl : String := "https://chaloner.com/open-roles"

end Rss

/-- The parsed JSON body of the upstream listing call. -/
structure JobsResponse where
  results : List RssJob
deriving DecidableEq

/-- A server response: HTTP status plus the body (for the JSON error
responses we keep the message carried in the `error` field). -/
structure HttpResponse where
  status : Nat
  body : String
deriving DecidableEq

/-- Outcome of the single upstream listing fetch. -/
inductive FetchOutcome where
  | ok (jobs : JobsResponse)
  | httpError (status : Nat)

/-- Outcome of the single upstream apply call. -/
inductive ApplyOutcome where
  | ok (result : String)
  | httpError (status : Nat)

/-- A browser `File` as far as validation is concerned. -/
structure FileData where
  name : String
  type : String
  size : Nat
deriving DecidableEq

/-- One multipart form entry. -/
inductive FormValue where
  | str (s : String)
  | file (f : FileData)
deriving DecidableEq

/-- The shared 500 response of both RSS routes (`catch` branch). -/
def rssErrResp : HttpResponse := { status := 500, body := "Failed to generate RSS feed" }

namespace Part000

/-- The `pubDate` text of the `part_000` renderer: the fixed year-start
placeholder built from the render-time year, independent of the job. -/
def itemPubDate (year : Nat) : String := "1st January " ++ toString year

/-- Permalink of an item in the `part_000` renderer. -/
def jobUrl (j : RssJob) : String := Rss.baseUrl ++ "?jobId=" ++ toString j.id

/-- One `<item>` of the `part_000` renderer, template text verbatim. -/
def itemXml (year : Nat) (j : RssJob) : String :=
  "\n    <item>\n      <title>" ++ Rss.escapeXmlStr (Rss.titleWithLoc j)
    ++ "</title>\n      <link>" ++ jobUrl j
    ++ "</link>\n      <guid isPermaLink=\"true\">" ++ jobUrl j
    ++ "</guid>\n      <pubDate>" ++ itemPubDate year
    ++ "</pubDate>\n      <description><![CDATA[\n        <p><strong>Location:</strong> "
    ++ Rss.escapeXmlStr (Rss.locationOf j)
    ++ "</p>\n        <p><strong>Job ID:</strong> " ++ toString j.id
    ++ "</p>\n      ]]></description>\n    </item>"

/-- `generateRSSFeed` of `part_000` applied to a listing response;
`currentDate` stands for `new Date().toUTCString()` and `year` for
`now.getFullYear()`. -/
def generateRSSFeed (currentDate : String) (year : Nat) (jr : JobsResponse) : String :=
  "<?xml version=\"1.0\" encoding=\"UTF-8\"?>\n<rss version=\"2.0\">\n  <channel>\n    <title>Chaloner — Open Roles</title>\n    <link>"
    ++ Rss.baseUrl
    ++ "</link>\n    <description>Explore open opportunities that match your skills and your passion.</description>\n    <language>en-us</language>\n    <lastBuildDate>"
    ++ currentDate ++ "</lastBuildDate>"
    ++ String.join (jr.results.map (itemXml year))
    ++ "\n  </channel>\n</rss>"

/-- The `GET` route of `part_000`: a missing or empty `BEARER_AUTH`
environment value throws before the fetch, and any thrown error is caught
and turned into the plain 500 response; otherwise exactly one upstream
fetch happens with the bearer header. -/
def GET (env : Option String) (upstream : String → FetchOutcome)
    (currentDate : String) (year : Nat) : HttpResponse :=
  match env with
  | none => rssErrResp
  | some tok =>
    if tok = "" then rssErrResp
    else
      match upstream ("Bearer " ++ tok) with
      | FetchOutcome.httpError _ => rssErrResp
      | FetchOutcome.ok jr => { status := 200, body := generateRSSFeed currentDate year jr }

end Part000

namespace Part001

/-- The `pubDate` text of the `part_001` renderer:
`new Date(job.published_at).toUTCString()`, with the date conversion an
external collaborator `toUTC`. -/
def itemPubDate (toUTC : String → String) (j : RssJob) : String := toUTC j.published_at

/-- Permalink of an item in the `part_001` renderer (path segment form). -/
def jobUrl (j : RssJob) : String := Rss.baseUrl ++ "/" ++ toString j.id

/-- One `<item>` of the `part_001` renderer, template text verbatim. -/
def itemXml (toUTC : String → String) (j : RssJob) : String :=
  "\n    <item>\n      <title>" ++ Rss.escapeXmlStr (Rss.titleWithLoc j)
    ++ "</title>\n      <link>" ++ jobUrl j
    ++ "</link>\n      <guid isPermaLink=\"true\">" ++ jobUrl j
    ++ "</guid>\n      <pubDate>" ++ itemPubDate toUTC j
    ++ "</pubDate>\n      <description><![CDATA[\n        <p><strong>Location:</strong> "
    ++ Rss.escapeXmlStr (Rss.locationOf j)
    ++ "</p>\n        <p><strong>Job ID:</strong> " ++ toString j.id
    ++ "</p>\n      ]]></description>\n    </item>"

/-- `generateRSSFeed` of `part_001`. -/
def generateRSSFeed (toUTC : String → String) (currentDate : String) (jr : JobsResponse) : String :=
  "<?xml version=\"1.0\" encoding=\"UTF-8\"?>\n<rss version=\"2.0\">\n  <channel>\n    <title>Chaloner — Open Roles</title>\n    <link>"
    ++ Rss.baseUrl
    ++ "</link>\n    <description>Explore open opportunities that match your skills and your passion.</description>\n    <language>en-us</language>\n    <lastBuildDate>"
    ++ currentDate ++ "</lastBuildDate>"
    ++ String.join (jr.results.map (itemXml toUTC))
    ++ "\n  </channel>\n</rss>"

/-- The `GET` route of `part_001` (same falsiness check on the
environment variable as `part_000`). -/
def GET (env : Option String) (upstream : String → FetchOutcome)
    (toUTC : String → String) (currentDate : String) : HttpResponse :=
  match env with
  | none => rssErrResp
  | some tok =>
    if tok = "" then rssErrResp
    else
      match upstream ("Bearer " ++ tok) with
      | FetchOutcome.httpError _ => rssErrResp
      | FetchOutcome.ok jr => { status := 200, body := generateRSSFeed toUTC currentDate jr }

/-- Incoming browser form of the first apply route variant
(`First-Name`/`Last-Name`/`Email`/`Phone-Number`/`Linkedin-URL`/`Resume`
keys). -/
structure ApplyRequestA where
  email : String
  firstName : String
  lastName : String
  phone : String
  linkedin : String
  resume : FileData
deriving DecidableEq

/-- Incoming browser form of the second apply route variant
(`email`/`name`/`phone`/`resume` keys). -/
structure ApplyRequestB where
  email : String
  name : String
  phone : String
  resume : FileData
deriving DecidableEq

/-- The apply `POST` route, variant A.  There is no check of the
environment value: `process.env.BEARER_AUTH!` with an absent variable
yields the JavaScript string `"undefined"` inside the concatenated header,
and the upstream call is made regardless. -/
def applyPOST_A (env : Option String)
    (upstream : String → String → List (String × FormValue) → ApplyOutcome)
    (jobId : String) (req : ApplyRequestA) : HttpResponse :=
  let url := "https://app.loxo.co/api/chaloner/jobs/" ++ jobId ++ "/apply"
  let authHeader := "Bearer " ++ (match env with | some t => t | none => "undefined")
  let name := req.firstName ++ " " ++ req.lastName
  let loxoFormData : List (String × FormValue) :=
    [(("email"), FormValue.str req.email), (("name"), FormValue.str name),
     (("phone"), FormValue.str req.phone), (("linkedin"), FormValue.str req.linkedin),
     (("resume"), FormValue.file req.resume)]
  match upstream url authHeader loxoFormData with
  | ApplyOutcome.httpError _ => { status := 500, body := "Failed to apply for job" }
  | ApplyOutcome.ok result => { status := 200, body := result }

/-- The apply `POST` route, variant B: same missing-check behaviour as
variant A with the shorter key set. -/
def applyPOST_B (env : Option String)
    (upstream : String → String → List (String × FormValue) → ApplyOutcome)
    (jobId : String) (req : ApplyRequestB) : HttpResponse :=
  let url := "https://app.loxo.co/api/chaloner/jobs/" ++ jobId ++ "/apply"
  let authHeader := "Bearer " ++ (match env with | some t => t | none => "undefined")
  let loxoFormData : List (String × FormValue) :=
    [(("email"), FormValue.str req.email), (("name"), FormValue.str req.name),
     (("phone"), FormValue.str req.phone), (("resume"), FormValue.file req.resume)]
  match upstream url authHeader loxoFormData with
  | ApplyOutcome.httpError _ => { status := 500, body := "Failed to apply for job" }
  | ApplyOutcome.ok result => { status := 200, body := result }

end Part001

namespace Js

/-- The character class `\s` of JavaScript regular expressions, which is
also the set stripped by `String.prototype.trim`: ASCII whitespace,
NBSP, the Unicode space separators, the line terminators and the BOM. -/
def jsWhitespace (c : Char) : Bool :=
  (c == Char.ofNat 32) || (c == Char.ofNat 9) || (c == Char.ofNat 10)
    || (c == Char.ofNat 11) || (c == Char.ofNat 12) || (c == Char.ofNat 13)
    || (c == Char.ofNat 160) || (c == Char.ofNat 5760)
    || (decide (8192 ≤ c.toNat) && decide (c.toNat ≤ 8202))
    || (c == Char.ofNat 8232) || (c == Char.ofNat 8233)
    || (c == Char.ofNat 8239) || (c == Char.ofNat 8287)
    || (c == Char.ofNat 12288) || (c == Char.ofNat 65279)

/-- `String.prototype.trim` on character lists. -/
def trimList (l : List Char) : List Char :=
  ((l.dropWhile jsWhitespace).reverse.dropWhile jsWhitespace).reverse

/-- `String.prototype.trim`. -/
def jsTrim (s : String) : String := String.mk (trimList s.data)

/-- `String.prototype.toLowerCase`; the inputs we reason about are ASCII,
where `Char.toLower` agrees with the JavaScript conversion. -/
def lowerStr (s : String) : String := String.mk (s.data.map Char.toLower)

end Js

namespace Client

/-- A character admitted by `[^\s@]` in the shared email regular
expression. -/
def okEmailChar (c : Char) : Bool := !(Js.jsWhitespace c) && c != '@'

/-- Acceptance of the part after the first `@` by `[^\s@]+\.[^\s@]+$`:
no whitespace or `@`, and some `.` with at least one character on each
side. -/
def emailTail (b : List Char) : Bool :=
  b.all okEmailChar
    && (List.range b.length).any
        (fun i => decide (0 < i) && decide (i + 1 < b.length) && (b.getD i ' ' == '.'))

/-- `JobApplicationValidator.validateEmail`: the test of
`^[^\s@]+@[^\s@]+\.[^\s@]+$` (shared verbatim by `resume-form.ts`,
`part_002` and `part_003`).  Since the first block excludes `@`, the `@`
of the pattern is the first `@` of the string. -/
def validateEmail (s : String) : Bool :=
  let l := s.data
  let locPart := l.takeWhile (fun c => c != '@')
  match l.dropWhile (fun c => c != '@') with
  | [] => false
  | _ :: domain => !locPart.isEmpty && locPart.all okEmailChar && emailTail domain

/-- JavaScript line terminators, the characters `.` does not match. -/
def isLineTerm (c : Char) : Bool :=
  (c == Char.ofNat 10) || (c == Char.ofNat 13) || (c == Char.ofNat 8232) || (c == Char.ofNat 8233)

/-- Drop an optional literal piece of a regular expression (the piece is
never a prefix of what legally follows it, so the greedy choice is exact). -/
def dropOpt (p l : List Char) : List Char := if Rss.pre p l then l.drop p.length else l

/-- Match a required literal piece of a regular expression. -/
def stripReq (p l : List Char) : Option (List Char) :=
  if Rss.pre p l then some (l.drop p.length) else none

/-- Core of `^https?:\/\/(www\.)?linkedin\.com\/.+/i` on an already
lower-cased input: the literal pieces in order, then `.+` demands one
character that is not a line terminator. -/
def linkedinCore (l : List Char) : Bool :=
  match stripReq (("http").data) l with
  | none => false
  | some r1 =>
    let r2 := dropOpt (("s").data) r1
    match stripReq (("://").data) r2 with
    | none => false
    | some r3 =>
      let r4 := dropOpt (("www.").data) r3
      match stripReq (("linkedin.com/").data) r4 with
      | none => false
      | some r5 =>
        match r5 with
        | [] => false
        | c :: _ => !isLineTerm c

/-- `JobApplicationValidator.validateLinkedInUrl` of `resume-form.ts` and
`part_003`: an empty value passes (optional field), otherwise the
case-insensitive regular expression must match. -/
def validateLinkedInUrl (u : String) : Bool :=
  if u = "" then true else linkedinCore (Js.lowerStr u).data

end Client

/-- `ApplicationData` of `resume-form.ts` (the superset of the fields of
the `part_003` variant, whose validator reads the common fields). -/
structure ApplicationData where
  firstName : String
  lastName : String
  email : String
  phoneNumber : String
  linkedinUrl : String
  consent : Bool
  resume : Option FileData
  coverLetter : Option FileData
  additionalFiles : List FileData
  desiredSalary : String
  desiredAdditionalCompensation : String
deriving DecidableEq

/-- `ValidationResult`. -/
structure ValidationResult where
  isValid : Bool
  errors : List String
deriving DecidableEq

namespace FileValidator

/-- `ALLOWED_FILE_TYPES` (identical in `resume-form.ts`, `form.ts` and
`part_003`). -/
def ALLOWED_FILE_TYPES : List String :=
  ["application/pdf", "application/msword",
   "application/vnd.openxmlformats-officedocument.wordprocessingml.document",
   "text/plain"]

/-- `MAX_FILE_SIZE = 5 * 1024 * 1024` bytes. -/
def MAX_FILE_SIZE : Nat := 5 * 1024 * 1024

/-- `FileValidator.validateFile`: a type outside the allow-list pushes the
type message, a size strictly above the ceiling pushes the size message,
and the file is valid when no message was pushed. -/
def validateFile (f : FileData) : ValidationResult :=
  let errors :=
    (if f.type ∈ ALLOWED_FILE_TYPES then []
     else ["Please upload a PDF, DOC, DOCX, or TXT file"])
    ++ (if f.size > MAX_FILE_SIZE then ["File size must be less than 5MB"] else [])
  { isValid := errors.isEmpty, errors := errors }

end FileValidator

/-- The pending submission set of `resume-form.ts`: the resume slot, the
cover-letter slot and the additional-files list. -/
structure FormState where
  uploadedResumeFile : Option FileData
  uploadedCoverLetterFile : Option FileData
  uploadedAdditionalFiles : List FileData
deriving DecidableEq

/-- One multipart request. -/
structure PostRequest where
  url : String
  entries : List (String × FormValue)
deriving DecidableEq

/-- What a submission handler does: either surface an error message (no
network request) or issue exactly one POST. -/
inductive SubmitAction where
  | showError (msg : String)
  | post (req : PostRequest)
deriving DecidableEq

namespace ResumeForm

/-- `JobApplicationValidator.validateForm` of `resume-form.ts` lines 62-91:
first/last name, email (presence then shape), phone presence, and the
optional LinkedIn URL.  This variant performs no consent check. -/
def validateForm (d : ApplicationData) : List String :=
  (if Js.jsTrim d.firstName = "" then ["First name is required"] else [])
  ++ (if Js.jsTrim d.lastName = "" then ["Last name is required"] else [])
  ++ (if Js.jsTrim d.email = "" then ["Email is required"]
      else if !Client.validateEmail d.email then ["Please enter a valid email address"] else [])
  ++ (if Js.jsTrim d.phoneNumber = "" then ["Phone number is required"] else [])
  ++ (if (d.linkedinUrl != "") && !Client.validateLinkedInUrl d.linkedinUrl
      then ["Please enter a valid LinkedIn URL"] else [])

/-- `handleFileUpload` of `resume-form.ts` lines 298-336, restricted to its
state effect and emitted message: an invalid file leaves every slot
unchanged and surfaces the joined validation errors; valid files go to the
slot selected by the input name, with the 3-file cap on additional files. -/
def handleFileUpload (st : FormState) (inputName : String) (f : FileData) :
    FormState × Option String :=
  let validation := FileValidator.validateFile f
  if !validation.isValid then
    (st, some (String.intercalate (". ") validation.errors))
  else if inputName = "Resume" then
    ({ st with uploadedResumeFile := some f }, none)
  else if inputName = "cover_letter" then
    ({ st with uploadedCoverLetterFile := some f }, none)
  else if st.uploadedAdditionalFiles.length < 3 then
    ({ st with uploadedAdditionalFiles := st.uploadedAdditionalFiles ++ [f] }, none)
  else
    (st, some ("You can only upload up to 3 additional files."))

/-- `validateFormData`: the validator errors plus the required-resume
check. -/
def validateFormData (d : ApplicationData) : ValidationResult :=
  let errors := validateForm d ++ (if d.resume.isNone then ["Please upload your resume"] else [])
  { isValid := errors.isEmpty, errors := errors }

/-- The single multipart POST built by `submitForm` of `resume-form.ts`. -/
def applyPayload (d : ApplicationData) : PostRequest :=
  { url := "http://localhost:3000/api/people",
    entries :=
      [(("First-Name"), FormValue.str d.firstName), (("Last-Name"), FormValue.str d.lastName),
       (("Email"), FormValue.str d.email), (("Phone-Number"), FormValue.str d.phoneNumber),
       (("Linkedin-URL"), FormValue.str d.linkedinUrl),
       (("desiredSalary"), FormValue.str d.desiredSalary),
       (("desiredAdditionalCompensation"), FormValue.str d.desiredAdditionalCompensation)]
      ++ (match d.resume with | some f => [(("Resume"), FormValue.file f)] | none => [])
      ++ (match d.coverLetter with | some f => [(("cover_letter"), FormValue.file f)] | none => [])
      ++ d.additionalFiles.map (fun f => (("additionalFile"), FormValue.file f)) }

/-- `handleFormSubmit` of `resume-form.ts` lines 481-491: failed validation
surfaces the joined errors and returns before any network activity;
otherwise `submitForm` performs its one `fetch`. -/
def handleFormSubmit (d : ApplicationData) : SubmitAction :=
  let validation := validateFormData d
  if !validation.isValid then
    SubmitAction.showError (String.intercalate (". ") validation.errors)
  else
    SubmitAction.post (applyPayload d)

end ResumeForm

namespace Part003

/-- `JobApplicationValidator.validateForm` of `part_003` lines 105-138:
as in `resume-form.ts` plus the final consent check. -/
def validateForm (d : ApplicationData) : List String :=
  (if Js.jsTrim d.firstName = "" then ["First name is required"] else [])
  ++ (if Js.jsTrim d.lastName = "" then ["Last name is required"] else [])
  ++ (if Js.jsTrim d.email = "" then ["Email is required"]
      else if !Client.validateEmail d.email then ["Please enter a valid email address"] else [])
  ++ (if Js.jsTrim d.phoneNumber = "" then ["Phone number is required"] else [])
  ++ (if (d.linkedinUrl != "") && !Client.validateLinkedInUrl d.linkedinUrl
      then ["Please enter a valid LinkedIn URL"] else [])
  ++ (if !d.consent then ["You must consent to be contacted about job opportunities"] else [])

/-- `validateFormData` of `part_003` (validator errors plus required
resume). -/
def validateFormData (d : ApplicationData) : ValidationResult :=
  let errors := validateForm d ++ (if d.resume.isNone then ["Please upload your resume"] else [])
  { isValid := errors.isEmpty, errors := errors }

/-- The multipart POST built by `submitForm` of `part_003`. -/
def applyPayload (d : ApplicationData) (jobId : String) : PostRequest :=
  { url := "http://localhost:3000/api/jobs/" ++ jobId ++ "/apply",
    entries :=
      [(("First-Name"), FormValue.str d.firstName), (("Last-Name"), FormValue.str d.lastName),
       (("Email"), FormValue.str d.email), (("Phone-Number"), FormValue.str d.phoneNumber),
       (("Linkedin-URL"), FormValue.str d.linkedinUrl)]
      ++ (match d.resume with | some f => [(("Resume"), FormValue.file f)] | none => []) }

/-- `handleFormSubmit` of `part_003`: validation gate, then the job-id
gate, then the single POST. -/
def handleFormSubmit (d : ApplicationData) (jobId : Option String) : SubmitAction :=
  let validation := validateFormData d
  if !validation.isValid then
    SubmitAction.showError (String.intercalate (". ") validation.errors)
  else
    match jobId with
    | none => SubmitAction.showError ("Job ID not found")
    | some jid => SubmitAction.post (applyPayload d jid)

end Part003

/-- `ApplicationData` of `part_002` (no phone number, no files). -/
structure Part002Data where
  firstName : String
  lastName : String
  email : String
  linkedinUrl : String
  consent : Bool
deriving DecidableEq

namespace Part002

/-- A character of `[a-zA-Z0-9-]` in the `part_002` LinkedIn pattern. -/
def handleChar (c : Char) : Bool :=
  (decide (97 ≤ c.toNat) && decide (c.toNat ≤ 122))
    || (decide (65 ≤ c.toNat) && decide (c.toNat ≤ 90))
    || (decide (48 ≤ c.toNat) && decide (c.toNat ≤ 57))
    || (c == Char.ofNat 45)

/-- Core of the case-sensitive, fully anchored `part_002` pattern
`^https?:\/\/(www\.)?linkedin\.com\/in\/[a-zA-Z0-9-]+\/?$`. -/
def linkedinCore (l : List Char) : Bool :=
  match Client.stripReq (("http").data) l with
  | none => false
  | some r1 =>
    let r2 := Client.dropOpt (("s").data) r1
    match Client.stripReq (("://").data) r2 with
    | none => false
    | some r3 =>
      let r4 := Client.dropOpt (("www.").data) r3
      match Client.stripReq (("linkedin.com/in/").data) r4 with
      | none => false
      | some r5 =>
        let handle := r5.takeWhile handleChar
        let tail := r5.dropWhile handleChar
        !handle.isEmpty && (tail.isEmpty || (tail == [Char.ofNat 47]))

/-- `JobApplicationValidator.validateLinkedInUrl` of `part_002`. -/
def validateLinkedInUrl (u : String) : Bool :=
  if u = "" then true else linkedinCore u.data

/-- `JobApplicationValidator.validateForm` of `part_002` lines 557-587:
no phone check, and the consent check at the end. -/
def validateForm (d : Part002Data) : List String :=
  (if Js.jsTrim d.firstName = "" then ["First name is required"] else [])
  ++ (if Js.jsTrim d.lastName = "" then ["Last name is required"] else [])
  ++ (if Js.jsTrim d.email = "" then ["Email is required"]
      else if !Client.validateEmail d.email then ["Please enter a valid email address"] else [])
  ++ (if (d.linkedinUrl != "") && !validateLinkedInUrl d.linkedinUrl
      then ["Please enter a valid LinkedIn URL"] else [])
  ++ (if !d.consent then ["You must consent to be contacted about job opportunities"] else [])

end Part002

/-- A job summary as fetched by the listing managers. -/
structure Job where
  id : Nat
  title : String
  company : String
  location : String
deriving DecidableEq

/-- The sort key. -/
inductive SortBy where
  | title
  | location
  | company
deriving DecidableEq

/-- The sort direction. -/
inductive SortOrder where
  | asc
  | desc
deriving DecidableEq

namespace Listing

/-- Field selection `a[this.sortBy]`. -/
def sortKey : SortBy → Job → String
  | SortBy.title, j => j.title
  | SortBy.location, j => j.location
  | SortBy.company, j => j.company

/-- Code-point lexicographic order on character lists; on the ASCII data
compared here it agrees with the sign of `localeCompare`. -/
def listLex : List Char → List Char → Bool
  | [], _ => true
  | _ :: _, [] => false
  | a :: as, b :: bs => if a = b then listLex as bs else decide (a < b)

/-- The comparator of `sortJobs` as a non-strict order: `jobLe sb so a b`
holds when the comparator puts `a` not after `b`. -/
def jobLe (sb : SortBy) (so : SortOrder) (a b : Job) : Bool :=
  let av := (Js.lowerStr (sortKey sb a)).data
  let bv := (Js.lowerStr (sortKey sb b)).data
  match so with
  | SortOrder.asc => listLex av bv
  | SortOrder.desc => listLex bv av

/-- `jobLe` as a relation. -/
def jobRel (sb : SortBy) (so : SortOrder) : Job → Job → Prop :=
  fun a b => jobLe sb so a b = true

instance (sb : SortBy) (so : SortOrder) : DecidableRel (jobRel sb so) :=
  fun a b => inferInstanceAs (Decidable (jobLe sb so a b = true))

/-- The mutable fields of `JobListingManager` (`part_002`) and
`UnifiedJobApplicationSystem` (`part_003`) that the list operations read
and write. -/
structure ManagerState where
  jobs : List Job
  filteredJobs : List Job
  sortBy : SortBy
  sortOrder : SortOrder
deriving DecidableEq

/-- State after `loadJobs` stored a fetched list: `filteredJobs` is a copy
of `jobs` and the sort state has its initial values. -/
def loadJobs (jobs : List Job) : ManagerState :=
  { jobs := jobs, filteredJobs := jobs, sortBy := SortBy.title, sortOrder := SortOrder.asc }

/-- `String.prototype.includes`: some suffix of the haystack starts with
the pattern. -/
def strIncludes (pat : List Char) : List Char → Bool
  | [] => Rss.pre pat []
  | c :: t => Rss.pre pat (c :: t) || strIncludes pat t

/-- The processed search term: `searchTerm.toLowerCase().trim()`. -/
def processTerm (s : String) : String := Js.jsTrim (Js.lowerStr s)

/-- The filter predicate of `filterJobs`: the processed term occurs in the
lower-cased title, company or location. -/
def jobMatches (term : String) (j : Job) : Bool :=
  strIncludes term.data (Js.lowerStr j.title).data
    || strIncludes term.data (Js.lowerStr j.company).data
    || strIncludes term.data (Js.lowerStr j.location).data

/-- `filterJobs` (`part_002` lines 233-248, identical in `part_003` lines
531-546): the term is lower-cased and trimmed; an empty term copies the
full fetched list, otherwise `filteredJobs` is re-derived by filtering the
fetched list. -/
def filterJobs (searchTerm : String) (st : ManagerState) : ManagerState :=
  let term := Js.jsTrim (Js.lowerStr searchTerm)
  if term = "" then { st with filteredJobs := st.jobs }
  else { st with filteredJobs := st.jobs.filter (fun job => jobMatches term job) }

/-- `sortJobs`: an in-place stable sort of `filteredJobs` by the
comparator; `Array.prototype.sort` is stable, so its result is the stable
insertion sort by the non-strict comparator order. -/
def sortJobs (st : ManagerState) : ManagerState :=
  { st with filteredJobs := List.insertionSort (jobRel st.sortBy st.sortOrder) st.filteredJobs }

/-- `sortOrder === "asc" ? "desc" : "asc"`. -/
def flipOrder : SortOrder → SortOrder
  | SortOrder.asc => SortOrder.desc
  | SortOrder.desc => SortOrder.asc

/-- `toggleSort`: flip the order when already sorting by location, else
reset to location ascending; then re-sort and re-render. -/
def toggleSort (st : ManagerState) : ManagerState :=
  sortJobs (if st.sortBy = SortBy.location
    then { st with sortOrder := flipOrder st.sortOrder }
    else { st with sortBy := SortBy.location, sortOrder := SortOrder.asc })

end Listing

/-! Concrete inputs used by the witnesses and counterexamples. -/

/-- A small allowed file. -/
def cvSmall : FileData := { name := "cv.pdf", type := "application/pdf", size := 1000 }

/-- A file of disallowed MIME type. -/
def badTypeFile : FileData := { name := "x.exe", type := "application/exe", size := 10 }

/-- An allowed-type file one byte over the 5 MB ceiling. -/
def bigFile : FileData := { name := "big.pdf", type := "application/pdf", size := 5 * 1024 * 1024 + 1 }

/-- An allowed-type file of exactly 5 MB. -/
def boundaryFile : FileData := { name := "cv.pdf", type := "application/pdf", size := 5 * 1024 * 1024 }

/-- The empty pending file set. -/
def fs0 : FormState :=
  { uploadedResumeFile := none, uploadedCoverLetterFile := none, uploadedAdditionalFiles := [] }

/-- A submission with every field valid except the consent flag. -/
def dNoConsent : ApplicationData :=
  { firstName := "John", lastName := "Doe", email := "john@example.com",
    phoneNumber := "+15551234567", linkedinUrl := "", consent := false,
    resume := some cvSmall, coverLetter := none, additionalFiles := [],
    desiredSalary := "", desiredAdditionalCompensation := "" }

/-- The `part_002` shape of a consent-less but otherwise valid submission. -/
def d2NoConsent : Part002Data :=
  { firstName := "John", lastName := "Doe", email := "john@example.com",
    linkedinUrl := "", consent := false }

/-- A second consent-less valid submission (used by C7). -/
def dNoConsent7 : ApplicationData :=
  { firstName := "Jane", lastName := "Roe", email := "jane@example.org",
    phoneNumber := "+442071234567", linkedinUrl := "", consent := false,
    resume := some cvSmall, coverLetter := none, additionalFiles := [],
    desiredSalary := "", desiredAdditionalCompensation := "" }

/-- A submission with an empty email field. -/
def dEmptyEmail : ApplicationData :=
  { firstName := "Jane", lastName := "Roe", email := "",
    phoneNumber := "+442071234567", linkedinUrl := "", consent := true,
    resume := some cvSmall, coverLetter := none, additionalFiles := [],
    desiredSalary := "", desiredAdditionalCompensation := "" }

/-- A fully valid submission. -/
def dValid : ApplicationData :=
  { firstName := "Jane", lastName := "Roe", email := "jane@example.org",
    phoneNumber := "+442071234567", linkedinUrl := "https://www.linkedin.com/in/jane",
    consent := true, resume := some cvSmall, coverLetter := none, additionalFiles := [],
    desiredSalary := "", desiredAdditionalCompensation := "" }

/-- A submission with valid fields but no resume. -/
def dNoResume : ApplicationData :=
  { firstName := "Jane", lastName := "Roe", email := "jane@example.org",
    phoneNumber := "+442071234567", linkedinUrl := "", consent := true,
    resume := none, coverLetter := none, additionalFiles := [],
    desiredSalary := "", desiredAdditionalCompensation := "" }

/-- A job whose location contains a reserved XML character. -/
def c1Job : RssJob :=
  { id := 3, title := "Director", macro_address := some ("A & B"), published_at := "" }

/-- A job with a real published timestamp. -/
def c4Job : RssJob :=
  { id := 5, title := "Editor", macro_address := none,
    published_at := "Wed, 01 May 2024 00:00:00 GMT" }

/-- The first job of the specification example. -/
def job1 : Job := { id := 1, title := "Engineer", company := "Acme", location := "Leeds" }

/-- The second job of the specification example. -/
def job2 : Job := { id := 2, title := "Designer", company := "Acme", location := "Remote" }

/-- A state already sorting by location ascending. -/
def stW : Listing.ManagerState :=
  { jobs := [job1, job2], filteredJobs := [job1, job2],
    sortBy := SortBy.location, sortOrder := SortOrder.asc }

/-- A state sorting by title. -/
def stT : Listing.ManagerState :=
  { jobs := [job1, job2], filteredJobs := [job1, job2],
    sortBy := SortBy.title, sortOrder := SortOrder.desc }

/-- The freshly loaded state of the specification example. -/
def st9 : Listing.ManagerState := Listing.loadJobs [job1, job2]

/-- A state with the same fetched list but a stale filtered list. -/
def st9B : Listing.ManagerState :=
  { jobs := [job1, job2], filteredJobs := [],
    sortBy := SortBy.location, sortOrder := SortOrder.desc }

/-- A concrete apply request. -/
def reqA0 : Part001.ApplyRequestA :=
  { email := "jane@example.org", firstName := "Jane", lastName := "Roe",
    phone := "+442071234567", linkedin := "", resume := cvSmall }

namespace Rss

theorem replaceChar_append (p : Char) (r a b : List Char) :
    replaceChar p r (a ++ b) = replaceChar p r a ++ replaceChar p r b := by
  induction a with
  | nil => rfl
  | cons c cs ih => simp [replaceChar, ih]

theorem escapeSingle (c : Char) :
    replaceChar apos (("&apos;").data)
      (replaceChar quoteC (("&quot;").data)
        (replaceChar '>' (("&gt;").data)
          (replaceChar '<' (("&lt;").data)
            (if c = '&' then ("&amp;").data else [c])))) = escapeChar c := by
  by_cases h1 : c = '&'
  · subst h1; decide
  rw [if_neg h1]
  by_cases h2 : c = '<'
  · subst h2; decide
  by_cases h3 : c = '>'
  · subst h3; decide
  by_cases h4 : c = quoteC
  · subst h4; decide
  by_cases h5 : c = apos
  · subst h5; decide
  simp [replaceChar, escapeChar, h1, h2, h3, h4, h5]

theorem escapeXml_eq_escapeChars (s : List Char) : escapeXml s = escapeChars s := by
  induction s with
  | nil => rfl
  | cons c cs ih =>
    have step : escapeXml (c :: cs)
        = (replaceChar apos (("&apos;").data)
            (replaceChar quoteC (("&quot;").data)
              (replaceChar '>' (("&gt;").data)
                (replaceChar '<' (("&lt;").data)
                  (if c = '&' then ("&amp;").data else [c])))))
          ++ escapeXml cs := by
      show replaceChar apos _ (replaceChar quoteC _ (replaceChar '>' _
        (replaceChar '<' _ ((if c = '&' then ("&amp;").data else [c])
          ++ replaceChar '&' (("&amp;").data) cs)))) = _
      rw [replaceChar_append, replaceChar_append, replaceChar_append, replaceChar_append]
      rfl
    rw [step, ih, escapeSingle]
    rfl

theorem unescapeEnt_length (cs : List Char) (d : Char) (t : List Char)
    (h : unescapeEnt cs = some (d, t)) : t.length ≤ cs.length := by
  simp only [unescapeEnt] at h
  split_ifs at h
  all_goals cases h
  all_goals simp [List.length_drop]

theorem unescapeAux_congr :
    ∀ (f1 f2 : Nat) (l : List Char), l.length ≤ f1 → l.length ≤ f2 →
      unescapeAux f1 l = unescapeAux f2 l := by
  intro f1
  induction f1 with
  | zero =>
    intro f2 l h1 _
    have hl : l = [] := List.length_eq_zero.mp (Nat.le_zero.mp h1)
    subst hl
    cases f2 <;> rfl
  | succ a ih =>
    intro f2 l h1 h2
    cases l with
    | nil => cases f2 <;> rfl
    | cons c cs =>
      cases f2 with
      | zero => exact absurd h2 (by simp)
      | succ b =>
        show unescapeAux (a + 1) (c :: cs) = unescapeAux (b + 1) (c :: cs)
        have hcs1 : cs.length ≤ a := by simpa using h1
        have hcs2 : cs.length ≤ b := by simpa using h2
        simp only [unescapeAux]
        by_cases hc : c = '&'
        · rw [if_pos hc, if_pos hc]
          cases hEnt : unescapeEnt cs with
          | none =>
            show '&' :: unescapeAux a cs = '&' :: unescapeAux b cs
            rw [ih b cs hcs1 hcs2]
          | some pair =>
            obtain ⟨d, t⟩ := pair
            have ht := unescapeEnt_length cs d t hEnt
            show d :: unescapeAux a t = d :: unescapeAux b t
            rw [ih b t (le_trans ht hcs1) (le_trans ht hcs2)]
        · rw [if_neg hc, if_neg hc, ih b cs hcs1 hcs2]

theorem unescape_default (c : Char) (t : List Char) (h : c ≠ '&') :
    unescapeXml (c :: t) = c :: unescapeXml t := by
  show unescapeAux (t.length + 1) (c :: t) = c :: unescapeAux t.length t
  simp only [unescapeAux]
  rw [if_neg h]

theorem unescape_amp (t : List Char) :
    unescapeXml ('&' :: 'a' :: 'm' :: 'p' :: ';' :: t) = '&' :: unescapeXml t := by
  show '&' :: unescapeAux (t.length + 4) t = '&' :: unescapeAux t.length t
  rw [unescapeAux_congr (t.length + 4) t.length t (by omega) (le_refl _)]

theorem unescape_lt (t : List Char) :
    unescapeXml ('&' :: 'l' :: 't' :: ';' :: t) = '<' :: unescapeXml t := by
  show '<' :: unescapeAux (t.length + 3) t = '<' :: unescapeAux t.length t
  rw [unescapeAux_congr (t.length + 3) t.length t (by omega) (le_refl _)]

theorem unescape_gt (t : List Char) :
    unescapeXml ('&' :: 'g' :: 't' :: ';' :: t) = '>' :: unescapeXml t := by
  show '>' :: unescapeAux (t.length + 3) t = '>' :: unescapeAux t.length t
  rw [unescapeAux_congr (t.length + 3) t.length t (by omega) (le_refl _)]

theorem unescape_quot (t : List Char) :
    unescapeXml ('&' :: 'q' :: 'u' :: 'o' :: 't' :: ';' :: t) = quoteC :: unescapeXml t := by
  show quoteC :: unescapeAux (t.length + 5) t = quoteC :: unescapeAux t.length t
  rw [unescapeAux_congr (t.length + 5) t.length t (by omega) (le_refl _)]

theorem unescape_apos (t : List Char) :
    unescapeXml ('&' :: 'a' :: 'p' :: 'o' :: 's' :: ';' :: t) = apos :: unescapeXml t := by
  show apos :: unescapeAux (t.length + 5) t = apos :: unescapeAux t.length t
  rw [unescapeAux_congr (t.length + 5) t.length t (by omega) (le_refl _)]

theorem unescape_escapeChars (s : List Char) : unescapeXml (escapeChars s) = s := by
  induction s with
  | nil => rfl
  | cons c cs ih =>
    show unescapeXml (escapeChar c ++ escapeChars cs) = c :: cs
    by_cases h1 : c = '&'
    · subst h1
      show unescapeXml ('&' :: 'a' :: 'm' :: 'p' :: ';' :: escapeChars cs) = _
      rw [unescape_amp, ih]
    by_cases h2 : c = '<'
    · subst h2
      show unescapeXml ('&' :: 'l' :: 't' :: ';' :: escapeChars cs) = _
      rw [unescape_lt, ih]
    by_cases h3 : c = '>'
    · subst h3
      show unescapeXml ('&' :: 'g' :: 't' :: ';' :: escapeChars cs) = _
      rw [unescape_gt, ih]
    by_cases h4 : c = quoteC
    · subst h4
      show unescapeXml ('&' :: 'q' :: 'u' :: 'o' :: 't' :: ';' :: escapeChars cs) = _
      rw [unescape_quot, ih]
    by_cases h5 : c = apos
    · subst h5
      show unescapeXml ('&' :: 'a' :: 'p' :: 'o' :: 's' :: ';' :: escapeChars cs) = _
      rw [unescape_apos, ih]
    show unescapeXml (escapeChar c ++ escapeChars cs) = c :: cs
    rw [show escapeChar c = [c] by simp [escapeChar, h1, h2, h3, h4, h5]]
    rw [List.singleton_append, unescape_default c _ h1, ih]

theorem unescape_escapeXml (s : List Char) : unescapeXml (escapeXml s) = s := by
  rw [escapeXml_eq_escapeChars, unescape_escapeChars]

end Rss

/-- C1 (amended): XML entity expansion is a left inverse of `escapeXml`,
so the escaped `<title>` text re-parses to the exact original title string;
the location inside the CDATA-wrapped description, however, is delivered
verbatim by a re-parser, i.e. as `escapeXml` of the location, not as the
original. -/
theorem C1_escape_roundtrip (s : List Char) (j : RssJob) :
    Rss.unescapeXml (Rss.escapeXml s) = s
    ∧ Rss.unescapeXml (Rss.titleXmlText j) = (Rss.titleWithLoc j).data
    ∧ Rss.cdataParsedText (Rss.descLocationXmlText j) = Rss.escapeXml (Rss.locationOf j).data :=
  ⟨Rss.unescape_escapeXml s, Rss.unescape_escapeXml _, rfl⟩

/-- C1 counterexample: for the location `"A & B"` the re-parsed (verbatim)
content of the CDATA-wrapped description differs from the original
location, so re-parsing the rendered XML does not yield the original
unescaped location. -/
theorem C1_cdata_counterexample :
    Rss.cdataParsedText (Rss.descLocationXmlText c1Job) ≠ (Rss.locationOf c1Job).data := by
  decide

/-- C4: the `part_001` renderer's `pubDate` is the job's own published
timestamp (converted by the external date formatter), while the `part_000`
renderer's `pubDate` is the fixed year-start placeholder, by construction
independent of the job; at the failing input it is `"1st January 2025"`
and not the job's timestamp. -/
theorem C4_pubDate :
    (∀ (toUTC : String → String) (j : RssJob),
       Part001.itemPubDate toUTC j = toUTC j.published_at)
    ∧ Part000.itemPubDate 2025 = ("1st January 2025")
    ∧ Part000.itemPubDate 2025 ≠ c4Job.published_at :=
  ⟨fun _ _ => rfl, by decide, by decide⟩

/-- C5 (amended): the two RSS `GET` routes detect a missing (or empty,
hence falsy) bearer token and answer with the plain 500 response without
consulting the upstream; the two apply `POST` routes perform no such check:
with the variable absent they behave exactly as if the token were the
literal string `"undefined"`, forwarding the request upstream. -/
theorem C5_missing_token (upstream : String → FetchOutcome)
    (upstreamApply : String → String → List (String × FormValue) → ApplyOutcome)
    (currentDate : String) (year : Nat) (toUTC : String → String)
    (jobId : String) (reqA : Part001.ApplyRequestA) (reqB : Part001.ApplyRequestB) :
    Part000.GET none upstream currentDate year = rssErrResp
    ∧ Part000.GET (some ("")) upstream currentDate year = rssErrResp
    ∧ Part001.GET none upstream toUTC currentDate = rssErrResp
    ∧ Part001.GET (some ("")) upstream toUTC currentDate = rssErrResp
    ∧ Part001.applyPOST_A none upstreamApply jobId reqA
        = Part001.applyPOST_A (some ("undefined")) upstreamApply jobId reqA
    ∧ Part001.applyPOST_B none upstreamApply jobId reqB
        = Part001.applyPOST_B (some ("undefined")) upstreamApply jobId reqB :=
  ⟨rfl, rfl, rfl, rfl, rfl, rfl⟩

/-- C5 counterexample: with the bearer token absent, the apply route still
issues the upstream call and returns HTTP 200 when the upstream accepts;
the absence is not surfaced as a configuration error producing HTTP 500. -/
theorem C5_missing_token_counterexample :
    (Part001.applyPOST_A none (fun _ _ _ => ApplyOutcome.ok ("accepted")) ("7") reqA0).status
      = 200 := by
  decide

theorem Part003.no_post_of_mem003 {d : ApplicationData} {m : String}
    (hm : m ∈ Part003.validateForm d) :
    ∀ (jid : Option String) (r : PostRequest),
      Part003.handleFormSubmit d jid ≠ SubmitAction.post r := by
  intro jid r hpost
  have hm2 : m ∈ (Part003.validateFormData d).errors := List.mem_append_left _ hm
  cases hE : (Part003.validateFormData d).errors with
  | nil => rw [hE] at hm2; exact absurd hm2 (List.not_mem_nil m)
  | cons a t =>
    have hval : (Part003.validateFormData d).isValid = false := by
      show (Part003.validateFormData d).errors.isEmpty = false
      rw [hE]
      rfl
    simp only [Part003.handleFormSubmit, hval] at hpost
    simp at hpost

/-- C2 (amended): the `part_003` and `part_002` validators treat consent as
required — a false consent flag always yields a non-empty error list
containing the consent message, and in `part_003` the submission handler
then never issues the POST; the `resume-form.ts` validator performs no
consent check (see the counterexample). -/
theorem C2_consent_required (d : ApplicationData) (d2 : Part002Data) (jid : Option String) :
    (d.consent = false →
       ("You must consent to be contacted about job opportunities") ∈ Part003.validateForm d
       ∧ Part003.validateForm d ≠ []
       ∧ ∀ r, Part003.handleFormSubmit d jid ≠ SubmitAction.post r)
    ∧ (d2.consent = false →
       ("You must consent to be contacted about job opportunities") ∈ Part002.validateForm d2
       ∧ Part002.validateForm d2 ≠ []) := by
  constructor
  · intro h
    have hmem : ("You must consent to be contacted about job opportunities")
        ∈ Part003.validateForm d := by
      simp [Part003.validateForm, h, List.mem_append]
    exact ⟨hmem, List.ne_nil_of_mem hmem, fun r => Part003.no_post_of_mem003 hmem jid r⟩
  · intro h
    have hmem : ("You must consent to be contacted about job opportunities")
        ∈ Part002.validateForm d2 := by
      simp [Part002.validateForm, h, List.mem_append]
    exact ⟨hmem, List.ne_nil_of_mem hmem⟩

/-- C2 witness: the consent message is produced by both consent-checking
validators on a concrete consent-less submission. -/
theorem C2_consent_required_witness :
    (("You must consent to be contacted about job opportunities") ∈ Part003.validateForm dNoConsent)
    ∧ (("You must consent to be contacted about job opportunities") ∈ Part002.validateForm d2NoConsent) :=
  ⟨((C2_consent_required dNoConsent d2NoConsent none).1 (by decide)).1,
   ((C2_consent_required dNoConsent d2NoConsent none).2 (by decide)).1⟩

/-- C2 counterexample: the `resume-form.ts` validator returns an empty
error list for a submission whose consent flag is false, so this validator
does not treat consent as a required field. -/
theorem C2_consent_counterexample :
    dNoConsent.consent = false ∧ ResumeForm.validateForm dNoConsent = [] := by
  decide

/-- C3 (amended): filtering with a term that is empty after lower-casing
and trimming copies the full last-fetched list into `filteredJobs` in its
original fetched order (the current sort is not re-applied), leaving every
other field unchanged. -/
theorem C3_empty_filter (st : Listing.ManagerState) (s : String)
    (h : Listing.processTerm s = "") :
    Listing.filterJobs s st = { st with filteredJobs := st.jobs } := by
  have h2 : Js.jsTrim (Js.lowerStr s) = "" := h
  simp only [Listing.filterJobs]
  rw [h2]
  simp

/-- C3 witness: a whitespace-only search term restores the full fetched
list. -/
theorem C3_empty_filter_witness :
    Listing.filterJobs ("   ") (Listing.loadJobs [job1, job2])
      = { Listing.loadJobs [job1, job2] with filteredJobs := [job1, job2] } :=
  C3_empty_filter (Listing.loadJobs [job1, job2]) ("   ") (by decide)

/-- C3 counterexample: after toggling the location sort (state
location/ascending, filtered list sorted to `[job1, job2]`), filtering with
the empty term yields the fetched order `[job2, job1]` — the full list, but
not in its last-sorted order. -/
theorem C3_empty_filter_counterexample :
    (Listing.toggleSort (Listing.loadJobs [job2, job1])).filteredJobs = [job1, job2]
    ∧ (Listing.toggleSort (Listing.loadJobs [job2, job1])).sortBy = SortBy.location
    ∧ (Listing.toggleSort (Listing.loadJobs [job2, job1])).sortOrder = SortOrder.asc
    ∧ (Listing.filterJobs ("") (Listing.toggleSort (Listing.loadJobs [job2, job1]))).filteredJobs
        = [job2, job1]
    ∧ ([job2, job1] : List Job) ≠ [job1, job2] := by
  decide

theorem FileValidator.validateFile_type_invalid (f : FileData)
    (h : f.type ∉ FileValidator.ALLOWED_FILE_TYPES) :
    (FileValidator.validateFile f).isValid = false
    ∧ (FileValidator.validateFile f).errors ≠ [] := by
  unfold FileValidator.validateFile
  rw [if_neg h]
  by_cases hs : f.size > FileValidator.MAX_FILE_SIZE
  · rw [if_pos hs]; exact ⟨rfl, by simp⟩
  · rw [if_neg hs]; exact ⟨rfl, by simp⟩

theorem FileValidator.validateFile_size_invalid (f : FileData)
    (h : f.size > FileValidator.MAX_FILE_SIZE) :
    (FileValidator.validateFile f).isValid = false
    ∧ (FileValidator.validateFile f).errors ≠ [] := by
  unfold FileValidator.validateFile
  rw [if_pos h]
  by_cases hm : f.type ∈ FileValidator.ALLOWED_FILE_TYPES
  · rw [if_pos hm]; exact ⟨rfl, by simp⟩
  · rw [if_neg hm]; exact ⟨rfl, by simp⟩

theorem ResumeForm.handleFileUpload_invalid (st : FormState) (inputName : String)
    (f : FileData) (h : (FileValidator.validateFile f).isValid = false) :
    ResumeForm.handleFileUpload st inputName f
      = (st, some (String.intercalate (". ") (FileValidator.validateFile f).errors)) := by
  simp only [ResumeForm.handleFileUpload]
  rw [h]
  simp

/-- C6: a file whose MIME type is outside the allow-list is rejected
whatever its size, and a file above the 5 MB ceiling is rejected whatever
its type: in both cases the pending file set is unchanged and the joined
non-empty validation errors are surfaced as the user-visible message. -/
theorem C6_file_validation (st : FormState) (inputName : String) (f : FileData) :
    (f.type ∉ FileValidator.ALLOWED_FILE_TYPES →
       ResumeForm.handleFileUpload st inputName f
         = (st, some (String.intercalate (". ") (FileValidator.validateFile f).errors))
       ∧ (FileValidator.validateFile f).errors ≠ [])
    ∧ (f.size > FileValidator.MAX_FILE_SIZE →
       ResumeForm.handleFileUpload st inputName f
         = (st, some (String.intercalate (". ") (FileValidator.validateFile f).errors))
       ∧ (FileValidator.validateFile f).errors ≠ []) := by
  constructor
  · intro h
    obtain ⟨hv, he⟩ := FileValidator.validateFile_type_invalid f h
    exact ⟨ResumeForm.handleFileUpload_invalid st inputName f hv, he⟩
  · intro h
    obtain ⟨hv, he⟩ := FileValidator.validateFile_size_invalid f h
    exact ⟨ResumeForm.handleFileUpload_invalid st inputName f hv, he⟩

/-- C6 witness: a disallowed-type file and an oversize file are both
rejected with their messages and the empty pending set stays empty. -/
theorem C6_file_validation_witness :
    ResumeForm.handleFileUpload fs0 ("Resume") badTypeFile
      = (fs0, some ("Please upload a PDF, DOC, DOCX, or TXT file"))
    ∧ ResumeForm.handleFileUpload fs0 ("Resume") bigFile
      = (fs0, some ("File size must be less than 5MB")) := by
  constructor
  · exact (((C6_file_validation fs0 ("Resume") badTypeFile).1 (by decide)).1).trans (by decide)
  · exact (((C6_file_validation fs0 ("Resume") bigFile).2 (by decide)).1).trans (by decide)

theorem ResumeForm.no_post_of_memRF {d : ApplicationData} {m : String}
    (hm : m ∈ (ResumeForm.validateFormData d).errors) :
    ∀ r : PostRequest, ResumeForm.handleFormSubmit d ≠ SubmitAction.post r := by
  intro r hpost
  cases hE : (ResumeForm.validateFormData d).errors with
  | nil => rw [hE] at hm; exact absurd hm (List.not_mem_nil m)
  | cons a t =>
    have hval : (ResumeForm.validateFormData d).isValid = false := by
      show (ResumeForm.validateFormData d).errors.isEmpty = false
      rw [hE]
      rfl
    simp only [ResumeForm.handleFormSubmit, hval] at hpost
    simp at hpost

/-- C7 (amended): an empty email yields the "Email is required" error and
no POST; an empty validation error list yields exactly the one multipart
POST with the form payload; a missing first name, last name, phone number
or resume also prevents any POST.  The consent flag is not among the
fields this form's validator checks (see the counterexample). -/
theorem C7_submit_gate (d : ApplicationData) :
    (Js.jsTrim d.email = "" →
       ("Email is required") ∈ (ResumeForm.validateFormData d).errors
       ∧ ∀ r, ResumeForm.handleFormSubmit d ≠ SubmitAction.post r)
    ∧ ((ResumeForm.validateFormData d).errors = [] →
       ResumeForm.handleFormSubmit d = SubmitAction.post (ResumeForm.applyPayload d))
    ∧ ((Js.jsTrim d.firstName = "" ∨ Js.jsTrim d.lastName = ""
        ∨ Js.jsTrim d.phoneNumber = "" ∨ d.resume = none) →
       ∀ r, ResumeForm.handleFormSubmit d ≠ SubmitAction.post r) := by
  refine ⟨fun h => ?_, fun h => ?_, fun h => ?_⟩
  · have hmem : ("Email is required") ∈ (ResumeForm.validateFormData d).errors := by
      apply List.mem_append_left
      simp [ResumeForm.validateForm, h, List.mem_append]
    exact ⟨hmem, ResumeForm.no_post_of_memRF hmem⟩
  · have hval : (ResumeForm.validateFormData d).isValid = true := by
      show (ResumeForm.validateFormData d).errors.isEmpty = true
      rw [h]
      rfl
    simp only [ResumeForm.handleFormSubmit, hval]
    simp
  · rcases h with h | h | h | h
    · exact ResumeForm.no_post_of_memRF (List.mem_append_left _
        (by simp [ResumeForm.validateForm, h, List.mem_append] :
          ("First name is required") ∈ ResumeForm.validateForm d))
    · exact ResumeForm.no_post_of_memRF (List.mem_append_left _
        (by simp [ResumeForm.validateForm, h, List.mem_append] :
          ("Last name is required") ∈ ResumeForm.validateForm d))
    · exact ResumeForm.no_post_of_memRF (List.mem_append_left _
        (by simp [ResumeForm.validateForm, h, List.mem_append] :
          ("Phone number is required") ∈ ResumeForm.validateForm d))
    · exact ResumeForm.no_post_of_memRF (List.mem_append_right _
        (by simp [h] : ("Please upload your resume")
          ∈ (if d.resume.isNone then [("Please upload your resume")] else [])))

/-- C7 witness: the empty-email submission produces the required-email
error and no POST, a fully valid submission produces exactly the one POST,
and a resume-less submission produces no POST. -/
theorem C7_submit_gate_witness :
    (("Email is required") ∈ (ResumeForm.validateFormData dEmptyEmail).errors
     ∧ ResumeForm.handleFormSubmit dEmptyEmail ≠ SubmitAction.post (ResumeForm.applyPayload dEmptyEmail))
    ∧ ResumeForm.handleFormSubmit dValid = SubmitAction.post (ResumeForm.applyPayload dValid)
    ∧ ResumeForm.handleFormSubmit dNoResume ≠ SubmitAction.post (ResumeForm.applyPayload dNoResume) := by
  refine ⟨⟨?_, ?_⟩, ?_, ?_⟩
  · exact ((C7_submit_gate dEmptyEmail).1 (by decide)).1
  · exact ((C7_submit_gate dEmptyEmail).1 (by decide)).2 _
  · exact (C7_submit_gate dValid).2.1 (by decide)
  · exact (C7_submit_gate dNoResume).2.2 (Or.inr (Or.inr (Or.inr rfl))) _

/-- C7 counterexample: consent is a required field of the specification,
yet a submission with consent unchecked and every other field valid passes
the `resume-form.ts` validation and a POST is issued. -/
theorem C7_submit_counterexample :
    dNoConsent7.consent = false
    ∧ ResumeForm.handleFormSubmit dNoConsent7
        = SubmitAction.post (ResumeForm.applyPayload dNoConsent7) := by
  exact ⟨rfl, by decide⟩

theorem Listing.listLex_total (a b : List Char) :
    Listing.listLex a b = true ∨ Listing.listLex b a = true := by
  induction a generalizing b with
  | nil => left; rfl
  | cons x as ih =>
    cases b with
    | nil => right; rfl
    | cons y bs =>
      by_cases hxy : x = y
      · subst hxy
        rcases ih bs with h | h
        · left; simp [Listing.listLex, h]
        · right; simp [Listing.listLex, h]
      · rcases lt_trichotomy x y with hlt | heq | hgt
        · left; simp [Listing.listLex, hxy, hlt]
        · exact absurd heq hxy
        · right; simp [Listing.listLex, Ne.symm hxy, hgt]

theorem Listing.listLex_trans :
    ∀ {a b c : List Char}, Listing.listLex a b = true → Listing.listLex b c = true →
      Listing.listLex a c = true := by
  intro a
  induction a with
  | nil => intro b c _ _; rfl
  | cons x as ih =>
    intro b c hab hbc
    cases b with
    | nil => simp [Listing.listLex] at hab
    | cons y bs =>
      cases c with
      | nil => simp [Listing.listLex] at hbc
      | cons z cs =>
        show Listing.listLex (x :: as) (z :: cs) = true
        by_cases hxy : x = y
        · subst hxy
          have hab2 : Listing.listLex as bs = true := by simpa [Listing.listLex] using hab
          by_cases hyz : x = z
          · subst hyz
            have hbc2 : Listing.listLex bs cs = true := by simpa [Listing.listLex] using hbc
            simp [Listing.listLex, ih hab2 hbc2]
          · have hbc2 : x < z := by simpa [Listing.listLex, hyz] using hbc
            simp [Listing.listLex, hyz, hbc2]
        · have hab2 : x < y := by simpa [Listing.listLex, hxy] using hab
          by_cases hyz : y = z
          · subst hyz
            simp [Listing.listLex, hxy, hab2]
          · have hbc2 : y < z := by simpa [Listing.listLex, hyz] using hbc
            have hxz : x < z := lt_trans hab2 hbc2
            simp [Listing.listLex, ne_of_lt hxz, hxz]

theorem Listing.jobRel_total (sb : SortBy) (so : SortOrder) (a b : Job) :
    Listing.jobRel sb so a b ∨ Listing.jobRel sb so b a := by
  cases so with
  | asc => exact Listing.listLex_total _ _
  | desc => exact Listing.listLex_total _ _

theorem Listing.jobRel_trans (sb : SortBy) (so : SortOrder) (a b c : Job) :
    Listing.jobRel sb so a b → Listing.jobRel sb so b c → Listing.jobRel sb so a c := by
  cases so with
  | asc => exact fun h1 h2 => Listing.listLex_trans h1 h2
  | desc => exact fun h1 h2 => Listing.listLex_trans h2 h1

theorem Listing.toggleSort_sortBy (st : Listing.ManagerState) :
    (Listing.toggleSort st).sortBy = SortBy.location := by
  by_cases hb : st.sortBy = SortBy.location <;>
    simp [Listing.toggleSort, Listing.sortJobs, hb]

theorem Listing.toggleSort_sortOrder_loc (st : Listing.ManagerState)
    (hb : st.sortBy = SortBy.location) :
    (Listing.toggleSort st).sortOrder = Listing.flipOrder st.sortOrder := by
  simp [Listing.toggleSort, Listing.sortJobs, hb]

theorem Listing.toggleSort_sortOrder_reset (st : Listing.ManagerState)
    (hb : ¬ st.sortBy = SortBy.location) :
    (Listing.toggleSort st).sortOrder = SortOrder.asc := by
  simp [Listing.toggleSort, Listing.sortJobs, hb]

theorem Listing.toggleSort_filteredJobs_loc (st : Listing.ManagerState)
    (hb : st.sortBy = SortBy.location) :
    (Listing.toggleSort st).filteredJobs
      = List.insertionSort (Listing.jobRel SortBy.location (Listing.flipOrder st.sortOrder))
          st.filteredJobs := by
  simp [Listing.toggleSort, Listing.sortJobs, hb]

theorem Listing.toggleSort_filteredJobs_reset (st : Listing.ManagerState)
    (hb : ¬ st.sortBy = SortBy.location) :
    (Listing.toggleSort st).filteredJobs
      = List.insertionSort (Listing.jobRel SortBy.location SortOrder.asc) st.filteredJobs := by
  simp [Listing.toggleSort, Listing.sortJobs, hb]

/-- C8: activating the location sort control flips the order when the list
is already sorted by location and otherwise resets to location/ascending;
from the location/ascending state two activations return to the
location/ascending state with the filtered list sorted ascending. -/
theorem C8_toggle_sort (st : Listing.ManagerState) :
    (st.sortBy = SortBy.location →
       (Listing.toggleSort st).sortBy = SortBy.location
       ∧ (Listing.toggleSort st).sortOrder = Listing.flipOrder st.sortOrder)
    ∧ (st.sortBy ≠ SortBy.location →
       (Listing.toggleSort st).sortBy = SortBy.location
       ∧ (Listing.toggleSort st).sortOrder = SortOrder.asc)
    ∧ (st.sortBy = SortBy.location → st.sortOrder = SortOrder.asc →
       (Listing.toggleSort (Listing.toggleSort st)).sortBy = SortBy.location
       ∧ (Listing.toggleSort (Listing.toggleSort st)).sortOrder = SortOrder.asc
       ∧ List.Sorted (Listing.jobRel SortBy.location SortOrder.asc)
           (Listing.toggleSort (Listing.toggleSort st)).filteredJobs) := by
  refine ⟨fun h => ⟨Listing.toggleSort_sortBy st, Listing.toggleSort_sortOrder_loc st h⟩,
          fun h => ⟨Listing.toggleSort_sortBy st, Listing.toggleSort_sortOrder_reset st h⟩,
          fun h h2 => ?_⟩
  have hb1 := Listing.toggleSort_sortBy st
  have ho1 : (Listing.toggleSort st).sortOrder = SortOrder.desc := by
    rw [Listing.toggleSort_sortOrder_loc st h, h2]; rfl
  refine ⟨Listing.toggleSort_sortBy _, ?_, ?_⟩
  · rw [Listing.toggleSort_sortOrder_loc _ hb1, ho1]; rfl
  · rw [Listing.toggleSort_filteredJobs_loc _ hb1, ho1]
    haveI : IsTotal Job (Listing.jobRel SortBy.location SortOrder.asc) :=
      ⟨Listing.jobRel_total _ _⟩
    haveI : IsTrans Job (Listing.jobRel SortBy.location SortOrder.asc) :=
      ⟨Listing.jobRel_trans _ _⟩
    exact List.sorted_insertionSort _ _

/-- C8 witness: from the location/ascending example state one activation
flips to descending, two activations return to ascending; from a
title-sorted state one activation resets to ascending. -/
theorem C8_toggle_sort_witness :
    (Listing.toggleSort stW).sortOrder = Listing.flipOrder SortOrder.asc
    ∧ (Listing.toggleSort stT).sortOrder = SortOrder.asc
    ∧ (Listing.toggleSort (Listing.toggleSort stW)).sortOrder = SortOrder.asc :=
  ⟨((C8_toggle_sort stW).1 rfl).2,
   ((C8_toggle_sort stT).2.1 (by decide)).2,
   ((C8_toggle_sort stW).2.2 rfl rfl).2.1⟩

theorem Listing.strIncludes_nil (hay : List Char) : Listing.strIncludes [] hay = true := by
  cases hay <;> rfl

theorem Listing.jobMatches_nil (j : Job) : Listing.jobMatches ("") j = true := by
  have h : ("" : String).data = [] := rfl
  simp [Listing.jobMatches, h, Listing.strIncludes_nil]

theorem Listing.filterJobs_eq (s : String) (st : Listing.ManagerState) :
    (Listing.filterJobs s st).filteredJobs
      = st.jobs.filter (fun j => Listing.jobMatches (Listing.processTerm s) j) := by
  by_cases ht : Js.jsTrim (Js.lowerStr s) = ""
  · have hp : Listing.processTerm s = "" := ht
    simp [Listing.filterJobs, ht, hp, Listing.jobMatches_nil]
  · simp only [Listing.filterJobs]
    rw [if_neg ht]
    rfl

/-- C9: after any search change `filteredJobs` is exactly the filter of the
last fetched list by the case-insensitive substring match of the processed
term on title, company or location — hence a subset of the fetched list —
and it is re-derived from the fetched list alone (two states with the same
fetched list produce the same result, whatever their previous filtered
lists); a sort change merely permutes the current filtered list, preserving
that set. -/
theorem C9_filtered_invariant (st : Listing.ManagerState) (s : String) :
    (Listing.filterJobs s st).filteredJobs
        = st.jobs.filter (fun j => Listing.jobMatches (Listing.processTerm s) j)
    ∧ (Listing.filterJobs s st).filteredJobs ⊆ st.jobs
    ∧ (∀ st2 : Listing.ManagerState, st2.jobs = st.jobs →
        (Listing.filterJobs s st2).filteredJobs = (Listing.filterJobs s st).filteredJobs)
    ∧ (Listing.toggleSort st).filteredJobs.Perm st.filteredJobs := by
  refine ⟨Listing.filterJobs_eq s st, ?_, fun st2 hj => ?_, ?_⟩
  · rw [Listing.filterJobs_eq]
    exact (List.filter_sublist _).subset
  · rw [Listing.filterJobs_eq, Listing.filterJobs_eq, hj]
  · by_cases hb : st.sortBy = SortBy.location
    · rw [Listing.toggleSort_filteredJobs_loc st hb]
      exact List.perm_insertionSort _ _
    · rw [Listing.toggleSort_filteredJobs_reset st hb]
      exact List.perm_insertionSort _ _

/-- C9 witness: on the specification example the term `"leeds"` selects
exactly the first job, and a state with the same fetched list but a stale
filtered list produces the same result. -/
theorem C9_filtered_invariant_witness :
    (Listing.filterJobs ("leeds") st9).filteredJobs = [job1]
    ∧ (Listing.filterJobs ("leeds") st9B).filteredJobs
        = (Listing.filterJobs ("leeds") st9).filteredJobs := by
  constructor
  · exact ((C9_filtered_invariant st9 ("leeds")).1).trans (by decide)
  · exact (C9_filtered_invariant st9 ("leeds")).2.2.1 st9B (by decide)

/-- C10: a file of exactly 5 * 1024 * 1024 bytes with an allowed MIME type
passes validation (the size check rejects only strictly larger files) and
is stored in the pending resume slot. -/
theorem C10_boundary_file (st : FormState) (f : FileData)
    (htype : f.type ∈ FileValidator.ALLOWED_FILE_TYPES)
    (hsize : f.size = 5 * 1024 * 1024) :
    FileValidator.validateFile f = { isValid := true, errors := [] }
    ∧ ResumeForm.handleFileUpload st ("Resume") f
        = ({ st with uploadedResumeFile := some f }, none) := by
  have hv : FileValidator.validateFile f = { isValid := true, errors := [] } := by
    unfold FileValidator.validateFile
    rw [if_pos htype, if_neg (fun hgt => absurd (hsize ▸ hgt) (by decide))]
    rfl
  refine ⟨hv, ?_⟩
  simp only [ResumeForm.handleFileUpload, hv]
  simp

/-- C10 witness: the concrete boundary-size PDF is accepted into the
resume slot of the empty pending set. -/
theorem C10_boundary_file_witness :
    ResumeForm.handleFileUpload fs0 ("Resume") boundaryFile
      = ({ fs0 with uploadedResumeFile := some boundaryFile }, none) :=
  (C10_boundary_file fs0 boundaryFile (by decide) rfl).2
